import Mathlib

/-!
Verification of the sliding-window table controller and its range-query
backend (a Next.js virtualized table over a paginated JSON store).

The definitions below are shallow embeddings of:
  - the client component `SlidingWindowTable` (visible-range calculation,
    trailing-edge debounce, react-query keyed fetching, `dataMap` keying),
  - the store adapter `getAppDataRange` (range slicing over the dataset),
  - the route handler `GET /api/apps/[app-id]/data` (parameter parsing,
    validation, defaults).
JavaScript numbers used as integers are modelled as `Int` (or `Nat` where
the source value is provably non-negative); `NaN` results of `parseInt`
are modelled as `none : Option Int`.
-/

/-- One row of the dataset (the `DataRecord` interface). -/
structure DataRecord where
  id : Int
  firstName : String
  lastName : String
  email : String
  jobTitle : String
  company : String
  status : String
  createdAt : String
deriving DecidableEq, Repr

/-- `BUFFER_SIZE = 20`: rows to load above/below the visible area. -/
def BUFFER_SIZE : Int := 20

/-- `DEBOUNCE_MS = 300`: debounce delay for API calls during rapid scrolling. -/
def DEBOUNCE_MS : Nat := 300

/-- A fetch range `{start, size}` as produced by the client. -/
structure FetchRange where
  start : Int
  size : Int
deriving DecidableEq, Repr

/-- The `visibleRange` memo of `SlidingWindowTable`: from the items of the
virtualizer (modelled by their row indices) and `totalCount`, compute the
buffered fetch range.  Mirrors:
`if (virtualItems.length === 0) return { start: 0, size: 50 };`
then `start = max(0, first - BUFFER_SIZE)`,
`end = min(totalCount - 1, last + BUFFER_SIZE)`, `size = end - start + 1`. -/
def visibleRange (virtualItems : List Int) (totalCount : Int) : FetchRange :=
  match virtualItems with
  | [] => { start := 0, size := 50 }
  | first :: rest =>
      let firstVisibleIndex := first
      let lastVisibleIndex := rest.getLastD first
      let start := max 0 (firstVisibleIndex - BUFFER_SIZE)
      let endIndex := min (totalCount - 1) (lastVisibleIndex + BUFFER_SIZE)
      let size := endIndex - start + 1
      { start := start, size := size }

lemma visibleRange_cons (fv : Int) (mid : List Int) (tc : Int) :
    visibleRange (fv :: mid) tc =
      { start := max 0 (fv - BUFFER_SIZE),
        size := min (tc - 1) (mid.getLastD fv + BUFFER_SIZE)
                  - max 0 (fv - BUFFER_SIZE) + 1 } := rfl

/-- C1: for every non-empty visible index range (head `fv`, last
`mid.getLastD fv`) and every `totalCount`, the Window Calculator returns
exactly `start = max(0, firstVisible - BUFFER)`,
`end = min(totalCount - 1, lastVisible + BUFFER)`, `size = end - start + 1`
with `BUFFER = 20`; in particular for `totalCount = 50000` with visible
indices `[2000..2012]` it returns `{start := 1980, size := 53}`. -/
theorem visibleRange_formula (fv : Int) (mid : List Int) (tc : Int) :
    visibleRange (fv :: mid) tc =
      { start := max 0 (fv - 20),
        size := min (tc - 1) (mid.getLastD fv + 20) - max 0 (fv - 20) + 1 } ∧
    visibleRange
      [2000, 2001, 2002, 2003, 2004, 2005, 2006, 2007, 2008, 2009, 2010, 2011,
       (2012 : Int)] 50000 = { start := 1980, size := 53 } :=
  ⟨visibleRange_cons fv mid tc, by decide⟩

/-- C2: for `totalCount > 0` and a visible range with
`0 ≤ firstVisible ≤ lastVisible ≤ totalCount - 1`, the output satisfies
`0 ≤ start` and `start + size - 1 ≤ totalCount - 1`; when
`lastVisible = totalCount - 1` the computed end is clamped to exactly
`totalCount - 1`. -/
theorem visibleRange_clamped (fv lv tc : Int) (mid : List Int)
    (hlast : mid.getLastD fv = lv) (hfv : 0 ≤ fv) (hle : fv ≤ lv)
    (hlv : lv ≤ tc - 1) (htc : 0 < tc) :
    0 ≤ (visibleRange (fv :: mid) tc).start ∧
    (visibleRange (fv :: mid) tc).start + (visibleRange (fv :: mid) tc).size - 1
      ≤ tc - 1 ∧
    (lv = tc - 1 →
      (visibleRange (fv :: mid) tc).start + (visibleRange (fv :: mid) tc).size - 1
        = tc - 1) := by
  rw [visibleRange_cons, hlast]
  refine ⟨le_max_left 0 _, ?_, ?_⟩ <;> simp only [BUFFER_SIZE] <;> omega

/-- Witness for C2 at the boundary scenario `totalCount = 2013`,
visible indices `[2000, 2012]` with `lastVisible = totalCount - 1`. -/
theorem visibleRange_clamped_witness :
    0 ≤ (visibleRange [2000, (2012 : Int)] 2013).start ∧
    (visibleRange [2000, (2012 : Int)] 2013).start
      + (visibleRange [2000, (2012 : Int)] 2013).size - 1 ≤ 2013 - 1 ∧
    ((2012 : Int) = 2013 - 1 →
      (visibleRange [2000, (2012 : Int)] 2013).start
        + (visibleRange [2000, (2012 : Int)] 2013).size - 1 = 2013 - 1) :=
  visibleRange_clamped 2000 2012 2013 [2012] (by decide) (by decide)
    (by decide) (by decide) (by decide)

/-! ## The debounce effect (Step 3.5 of `SlidingWindowTable`)

`useEffect(() => { const timer = setTimeout(() => setDebouncedRange(visibleRange), DEBOUNCE_MS); return () => clearTimeout(timer); }, [visibleRange])`

Each new value of `visibleRange` (a Desired Range, tagged with its arrival
time) starts a `DEBOUNCE_MS` timer; the cleanup of the effect clears the
pending timer when the next value arrives, so a timer set at time `t` fires
(calling `setDebouncedRange`) only if the next Desired Range does not
arrive strictly before `t + DEBOUNCE_MS`.  A fired timer changes
`debouncedRange` and hence the `["app-data", ...]` query key, which issues
exactly one fetch for that range. -/

/-- The `setDebouncedRange` calls (fire time, range) produced by a
sequence of Desired Ranges `(arrival time, range)` with increasing times:
the timer of each update fires unless the next update arrives strictly
before the fire instant; the timer of the last update always fires. -/
def debounceFires : List (Nat × FetchRange) → List (Nat × FetchRange)
  | [] => []
  | (t, r) :: rest =>
    match rest with
    | [] => [(t + DEBOUNCE_MS, r)]
    | (t2, r2) :: rest2 =>
        (if t + DEBOUNCE_MS ≤ t2 then [(t + DEBOUNCE_MS, r)] else [])
          ++ debounceFires ((t2, r2) :: rest2)

/-- The data fetches issued by the debounced query: one per fired timer
(each fire changes the `["app-data", appId, start, size]` query key). -/
def debouncedFetches (updates : List (Nat × FetchRange)) : List FetchRange :=
  (debounceFires updates).map Prod.snd

/-- The updates all fall within one quiet interval: each arrives strictly
less than `DEBOUNCE_MS` after the previous one. -/
def withinQuiet : List (Nat × FetchRange) → Bool
  | [] => true
  | [_] => true
  | (t, _) :: (t2, r2) :: rest =>
      decide (t2 < t + DEBOUNCE_MS) && withinQuiet ((t2, r2) :: rest)

lemma getLastD_cons_default {α : Type} (a : α) (l : List α) (d d2 : α) :
    (a :: l).getLastD d = (a :: l).getLastD d2 := by
  induction l generalizing a with
  | nil => rfl
  | cons b l ih => simp only [List.getLastD_cons]

lemma debounceFires_withinQuiet (u : Nat × FetchRange)
    (us : List (Nat × FetchRange)) (hq : withinQuiet (u :: us) = true) :
    debounceFires (u :: us) =
      [(((u :: us).getLastD u).1 + DEBOUNCE_MS, ((u :: us).getLastD u).2)] := by
  induction us generalizing u with
  | nil => simp [debounceFires]
  | cons u2 us2 ih =>
      obtain ⟨t, r⟩ := u
      obtain ⟨t2, r2⟩ := u2
      simp only [withinQuiet, Bool.and_eq_true, decide_eq_true_eq] at hq
      have hne : ¬ t + DEBOUNCE_MS ≤ t2 := by omega
      simp only [debounceFires, if_neg hne, List.nil_append]
      rw [ih ⟨t2, r2⟩ hq.2]
      simp only [List.getLastD_cons]

/-- C3: trailing-edge debounce coalescing — if several Desired Ranges
arrive within one quiet interval (each strictly less than 300 ms after the
previous), then exactly one fetch is issued, for the Desired Range current
when the timer fires (the last one), at the last arrival time + 300 ms. -/
theorem debounce_coalesces_to_last (u : Nat × FetchRange)
    (us : List (Nat × FetchRange)) (hq : withinQuiet (u :: us) = true) :
    debounceFires (u :: us) =
      [(((u :: us).getLastD u).1 + DEBOUNCE_MS, ((u :: us).getLastD u).2)] ∧
    debouncedFetches (u :: us) = [((u :: us).getLastD u).2] := by
  refine ⟨debounceFires_withinQuiet u us hq, ?_⟩
  rw [debouncedFetches, debounceFires_withinQuiet u us hq]
  rfl

/-- Witness for C3 at the spec scenario: Desired Ranges `{0,50}`, `{10,50}`,
`{25,50}` arriving at times 0, 100, 200 ms produce exactly one fetch,
for `{25,50}`, fired at 500 ms. -/
theorem debounce_coalesces_to_last_witness :
    debounceFires [(0, ⟨0, 50⟩), (100, ⟨10, 50⟩), (200, ⟨25, 50⟩)] =
      [(500, ⟨25, 50⟩)] ∧
    debouncedFetches [(0, ⟨0, 50⟩), (100, ⟨10, 50⟩), (200, ⟨25, 50⟩)] =
      [⟨25, 50⟩] := by
  have h := debounce_coalesces_to_last (0, ⟨0, 50⟩)
    [(100, ⟨10, 50⟩), (200, ⟨25, 50⟩)] (by decide)
  simpa using h

/-! ## The keyed query cache and `dataMap` (Steps 4 and 5)

The `useQuery` call keys each fetch by
`["app-data", appId, debouncedRange.start, debouncedRange.size]`; the
react-query client cache stores each completed response under the key of
the request that produced it, and the component reads the entry of the
*current* key only.  We model the client cache as an association list of
`(FetchRange, response)` pairs, newest first; a completing fetch prepends
its entry, and lookup takes the newest entry for a key. -/

/-- The parsed JSON body seen by the client: the `data` and `totalCount`
fields may each be absent (e.g. an error body `{error: …}`). -/
structure ApiResponse where
  data? : Option (List DataRecord)
  totalCount? : Option Int
deriving DecidableEq, Repr

/-- The react-query client cache for the app-data queries: completed
responses keyed by the fetch range of the request that produced them,
newest first. -/
def QueryCache : Type := List (FetchRange × ApiResponse)

/-- A fetch completion stores its response under its own query key. -/
def applyCompletion (cache : QueryCache) (key : FetchRange)
    (response : ApiResponse) : QueryCache :=
  (key, response) :: cache

/-- The cached response for a query key (newest entry wins). -/
def cacheLookup (cache : QueryCache) (key : FetchRange) : Option ApiResponse :=
  (List.find? (fun e => decide (e.1 = key)) cache).map (fun e => e.2)

/-- The entries `map.set(debouncedRange.start + idx, record)` written by
`queryData.data.forEach((record, idx) => …)`, in order. -/
def dataMapEntries (startKey : Int) : List DataRecord → List (Int × DataRecord)
  | [] => []
  | record :: rest => (startKey, record) :: dataMapEntries (startKey + 1) rest

/-- The `dataMap` memo: `if (!queryData?.data) return new Map()` and
otherwise a fresh map keyed by `debouncedRange.start + idx`.  (An empty
`data` array is truthy in JavaScript and yields the empty map through the
`forEach`, which coincides with this model.) -/
def dataMap (queryData : Option ApiResponse) (startKey : Int) :
    List (Int × DataRecord) :=
  match queryData with
  | none => []
  | some body =>
      match body.data? with
      | none => []
      | some records => dataMapEntries startKey records

/-- `Map.get` on the modelled map (keys are distinct, newest-first). -/
def mapGet (m : List (Int × DataRecord)) (k : Int) : Option DataRecord :=
  (List.find? (fun e => decide (e.1 = k)) m).map (fun e => e.2)

lemma dataMapEntries_length (startKey : Int) (records : List DataRecord) :
    (dataMapEntries startKey records).length = records.length := by
  induction records generalizing startKey with
  | nil => rfl
  | cons r rs ih => simp [dataMapEntries, ih]

lemma mapGet_dataMapEntries_lt (startKey : Int) (records : List DataRecord)
    (i : Nat) (hi : i < records.length) :
    mapGet (dataMapEntries startKey records) (startKey + i) = records[i]? := by
  induction records generalizing startKey i with
  | nil => simp at hi
  | cons r rs ih =>
      cases i with
      | zero => simp [dataMapEntries, mapGet, List.find?]
      | succ j =>
          have hkey : ¬ (startKey = startKey + (↑(j + 1) : Int)) := by
            push_cast
            omega
          have hj : j < rs.length := by simpa using hi
          have := ih (startKey + 1) j hj
          simp only [dataMapEntries, mapGet, List.find?, decide_eq_true_eq,
            hkey, decide_False]
          rw [show startKey + (↑(j + 1) : Int) = startKey + 1 + ↑j by push_cast; ring]
          simpa [mapGet] using this
  
lemma mapGet_dataMapEntries_out (startKey : Int) (records : List DataRecord)
    (k : Int) (hk : ∀ i : Nat, i < records.length → k ≠ startKey + i) :
    mapGet (dataMapEntries startKey records) k = none := by
  induction records generalizing startKey with
  | nil => rfl
  | cons r rs ih =>
      have h0 : k ≠ startKey := by
        have := hk 0 (by simp)
        simpa using this
      have hrest : ∀ i : Nat, i < rs.length → k ≠ startKey + 1 + i := by
        intro i hi
        have := hk (i + 1) (by simpa using Nat.succ_lt_succ hi)
        push_cast at this ⊢
        omega
      have hkey : ¬ (startKey = k) := fun h => h0 h.symm
      simp only [dataMapEntries, mapGet, List.find?, decide_eq_true_eq, hkey,
        decide_False]
      simpa [mapGet] using ih (startKey + 1) hrest

/-- C4: staleness / monotonic application.  A fetch for range `A` that
completes after a fetch for range `B` (issued later, already completed and
applied, and the current query key) stores its response under key `A`
only: the cached response for `B` — and therefore the rendered `dataMap`,
which reads the current key `B` — is unchanged, so the cache never comes
to reflect the older fetch `A`. -/
theorem late_stale_response_not_applied (cache : QueryCache)
    (A B : FetchRange) (respA respB : ApiResponse) (hAB : A ≠ B)
    (hB : cacheLookup cache B = some respB) :
    cacheLookup (applyCompletion cache A respA) B = some respB ∧
    dataMap (cacheLookup (applyCompletion cache A respA) B) B.start
      = dataMap (some respB) B.start := by
  have h1 : cacheLookup (applyCompletion cache A respA) B = some respB := by
    simp only [cacheLookup, applyCompletion, List.find?]
    rw [decide_eq_false hAB]
    simpa [cacheLookup] using hB
  exact ⟨h1, by rw [h1]⟩

/-- A sample record used by concrete witnesses. -/
def sampleRecord : DataRecord :=
  { id := 1, firstName := "Ada", lastName := "Lovelace",
    email := "ada@example.com", jobTitle := "Engineer", company := "Acme",
    status := "Active", createdAt := "2024-01-01T00:00:00.000Z" }

/-- A second sample record used by concrete witnesses. -/
def sampleRecord2 : DataRecord :=
  { id := 2, firstName := "Alan", lastName := "Turing",
    email := "alan@example.com", jobTitle := "Analyst", company := "Acme",
    status := "Pending", createdAt := "2024-02-02T00:00:00.000Z" }

/-- Witness for C4: with range `B = {10, 50}` applied (response holding
`sampleRecord`), a late completion for the older range `A = {0, 50}`
leaves the cached response and the rendered map for `B` unchanged. -/
theorem late_stale_response_not_applied_witness :
    cacheLookup
        (applyCompletion [(⟨10, 50⟩, ⟨some [sampleRecord], some 1⟩)]
          ⟨0, 50⟩ ⟨some [sampleRecord2], some 1⟩) ⟨10, 50⟩
      = some ⟨some [sampleRecord], some 1⟩ ∧
    dataMap
        (cacheLookup
          (applyCompletion [(⟨10, 50⟩, ⟨some [sampleRecord], some 1⟩)]
            ⟨0, 50⟩ ⟨some [sampleRecord2], some 1⟩) ⟨10, 50⟩)
        (FetchRange.mk 10 50).start
      = dataMap (some ⟨some [sampleRecord], some 1⟩)
          (FetchRange.mk 10 50).start :=
  late_stale_response_not_applied
    [(⟨10, 50⟩, ⟨some [sampleRecord], some 1⟩)] ⟨0, 50⟩ ⟨10, 50⟩
    ⟨some [sampleRecord2], some 1⟩ ⟨some [sampleRecord], some 1⟩
    (by decide) (by decide)

/-- C5: on a successful fetch, `dataMap` is exactly the returned records,
each record at offset `i` keyed by absolute index `fetchedStart + i` (at
that moment `debouncedRange.start` is the `start` of the range that
produced the response, since the response is read under its own query
key): lookup at `fetchedStart + i` yields record `i`, every other key is
absent, and the map has exactly one entry per returned record,
independently of any previously rendered map (the memo builds a fresh
`Map`). -/
theorem dataMap_wholesale_keying (fetchedStart : Int)
    (records : List DataRecord) (tcOpt : Option Int) :
    (∀ i : Nat, i < records.length →
      mapGet (dataMap (some ⟨some records, tcOpt⟩) fetchedStart)
          (fetchedStart + i) = records[i]?) ∧
    (∀ k : Int, (∀ i : Nat, i < records.length → k ≠ fetchedStart + i) →
      mapGet (dataMap (some ⟨some records, tcOpt⟩) fetchedStart) k = none) ∧
    (dataMap (some ⟨some records, tcOpt⟩) fetchedStart).length
      = records.length :=
  ⟨fun i hi => mapGet_dataMapEntries_lt fetchedStart records i hi,
   fun k hk => mapGet_dataMapEntries_out fetchedStart records k hk,
   dataMapEntries_length fetchedStart records⟩

/-- Witness for C5: a response of two records fetched for start 1980 keys
them at 1980 and 1981, leaves 1982 absent, and has exactly two entries. -/
theorem dataMap_wholesale_keying_witness :
    mapGet (dataMap (some ⟨some [sampleRecord, sampleRecord2], some 50000⟩)
        1980) (1980 + (1 : Nat))
      = [sampleRecord, sampleRecord2][(1 : Nat)]? ∧
    mapGet (dataMap (some ⟨some [sampleRecord, sampleRecord2], some 50000⟩)
        1980) 1982 = none ∧
    (dataMap (some ⟨some [sampleRecord, sampleRecord2], some 50000⟩)
        1980).length = 2 := by
  have h := dataMap_wholesale_keying 1980 [sampleRecord, sampleRecord2]
    (some 50000)
  exact ⟨h.1 1 (by decide),
    h.2.1 1982 (by intro i hi; simp at hi ⊢; omega),
    h.2.2⟩

/-- C6: cache-bound invariant.  A scroll-driven fetch requests the range
computed by `visibleRange` from a non-empty set of visible indices; the
store returns at most `size` records, and `dataMap` holds exactly one
entry per returned record, so after any such fetch the rendered cache
never exceeds one window:
`BUFFER_SIZE * 2 + visibleCount` entries (never `totalCount`). -/
theorem dataMap_size_bounded (fv : Int) (mid : List Int) (tc : Int)
    (records : List DataRecord) (tcOpt : Option Int)
    (hclamp : (records.length : Int) ≤ (visibleRange (fv :: mid) tc).size) :
    ((dataMap (some ⟨some records, tcOpt⟩)
        (visibleRange (fv :: mid) tc).start).length : Int)
      ≤ BUFFER_SIZE * 2 + (mid.getLastD fv - fv + 1) := by
  have hlen : (dataMap (some ⟨some records, tcOpt⟩)
      (visibleRange (fv :: mid) tc).start).length = records.length :=
    dataMapEntries_length _ records
  rw [hlen]
  have hsize : (visibleRange (fv :: mid) tc).size
      ≤ BUFFER_SIZE * 2 + (mid.getLastD fv - fv + 1) := by
    rw [visibleRange_cons]
    simp only [BUFFER_SIZE]
    omega
  omega

/-- Witness for C6: visible indices `[0..12]` of a 50000-row dataset give
a window of size 53; a response of one record keeps the rendered cache at
1 ≤ 40 + 13 entries. -/
theorem dataMap_size_bounded_witness :
    ((dataMap (some ⟨some [sampleRecord], some 50000⟩)
        (visibleRange [0, 1, 2, 3, 4, 5, 6, 7, 8, 9, 10, 11, (12 : Int)]
          50000).start).length : Int)
      ≤ BUFFER_SIZE * 2
          + (List.getLastD [1, 2, 3, 4, 5, 6, 7, 8, 9, 10, 11, (12 : Int)] 0
              - 0 + 1) :=
  dataMap_size_bounded 0 [1, 2, 3, 4, 5, 6, 7, 8, 9, 10, 11, 12] 50000
    [sampleRecord] (some 50000) (by decide)

/-! ## Fetch settlement as observed by the component (Step 4)

The `queryFn` is `fetch(…).then(res => res.json())`: it rejects when the
store is unreachable or the body is not JSON, and resolves with whatever
JSON body came back otherwise — including non-2xx bodies such as
`{error: …}`, since `fetch` does not reject on HTTP error statuses.
`placeholderData: (previousData) => previousData` (react-query v5) is
presented only while the query of the current key is still *pending*:
during that phase the component keeps observing the data of the previous
key.  Once the query settles, a resolved body is observed as-is, and a
rejection (after retries) leaves the data of the freshly keyed query
undefined — the placeholder no longer applies in the `error` status. -/

/-- The lifecycle of the query observed under the current (scroll-driven,
freshly keyed) `["app-data", …]` query key. -/
inductive QueryStatus where
  /-- Still fetching or retrying: no settled result for this key yet. -/
  | pending
  /-- The promise resolved with a parsed JSON body. -/
  | success (body : ApiResponse)
  /-- The promise rejected (store unreachable or body not parseable) and
  retries are exhausted: the query settled in the `error` status. -/
  | error
deriving DecidableEq, Repr

/-- The `queryData` observed by the component for a freshly keyed query
in the given status: `previousData` (the `placeholderData` fallback,
i.e. the data of the previously observed key) while pending, the resolved
body on success, and `undefined` on a settled error — a newly keyed query
has no data of its own to fall back on. -/
def observedData (previousData : Option ApiResponse) :
    QueryStatus → Option ApiResponse
  | .pending => previousData
  | .success body => some body
  | .error => none

/-- A previously fetched good response: one record, `totalCount = 1`. -/
def goodResponse : ApiResponse := ⟨some [sampleRecord], some 1⟩

/-- A malformed but resolved response body, e.g. the JSON error body
of a 400 route response: it has no `data` array. -/
def malformedResponse : ApiResponse := ⟨none, none⟩

/-- Counterexample to C7: with a good window (`goodResponse`) on screen,
both failure modes mutate the Row Cache once the fetch settles.  A fetch
that resolves with a malformed body (no `data` array) replaces the
observed data and `dataMap` becomes the empty map; a fetch whose promise
rejects settles in the `error` status, where the newly keyed query has
undefined data (`placeholderData` applies only while pending), so
`dataMap` becomes empty as well — in either case the last good window
vanishes, contradicting the claim that on every fetch failure the cache
is untouched and the last good window remains present. -/
theorem settled_failure_clears_dataMap :
    observedData (some goodResponse) (.success malformedResponse)
      = some malformedResponse ∧
    dataMap (observedData (some goodResponse) (.success malformedResponse)) 0
      = [] ∧
    observedData (some goodResponse) .error = none ∧
    dataMap (observedData (some goodResponse) .error) 0 = [] ∧
    dataMap (some goodResponse) 0 ≠ [] := by
  refine ⟨rfl, rfl, rfl, rfl, ?_⟩
  decide

/-- C7 amended: no error propagates across the render path (`dataMap` is
total and absent indices render skeleton rows), and while the failing
fetch for the new range key is still pending, `placeholderData` keeps the
last good window visible; but once the fetch settles — whether the
promise rejects (store unreachable, unparseable body) or resolves with a
malformed body lacking a `data` array — the observed data for the current
key carries no `data` array and `dataMap` becomes a fresh empty map: the
last good window vanishes into skeleton rows rather than remaining
(the table still does not crash). -/
theorem fetch_failure_cache_behavior (previousData : Option ApiResponse)
    (startKey : Int) (tcOpt : Option Int) :
    dataMap (observedData previousData .pending) startKey
      = dataMap previousData startKey ∧
    dataMap (observedData previousData .error) startKey = [] ∧
    dataMap (observedData previousData (.success ⟨none, tcOpt⟩)) startKey
      = [] := ⟨rfl, rfl, rfl⟩

/-! ## The range store (`getAppDataRange`, lib/data/api.ts)

`getAppDataRange(appId, start, size)` reads `${appId}_data.json` (modelled
as `Option (List DataRecord)`: `none` when the file does not exist) and
returns `{ data: allData.slice(start, start + size), totalCount:
allData.length }`, or `{ data: [], totalCount: 0 }` for a missing file.
For `0 ≤ start` and `0 ≤ size`, `Array.prototype.slice(start, start + size)`
is `(allData.drop start).take size`. -/

/-- The response shape of the store `{ data, totalCount }`. -/
structure RangeQueryResult where
  data : List DataRecord
  totalCount : Nat
deriving DecidableEq, Repr

/-- `getAppDataRange` over the data file of the app (`none` = file missing).
`start` and `size` are the route-validated non-negative parameters. -/
def getAppDataRange (file : Option (List DataRecord)) (start size : Nat) :
    RangeQueryResult :=
  match file with
  | none => { data := [], totalCount := 0 }
  | some allData =>
      { data := (allData.drop start).take size, totalCount := allData.length }

/-- The records of the data file (empty when the file is missing). -/
def fileRecords (file : Option (List DataRecord)) : List DataRecord :=
  file.getD []

lemma getAppDataRange_eq (file : Option (List DataRecord))
    (start size : Nat) :
    getAppDataRange file start size =
      { data := ((fileRecords file).drop start).take size,
        totalCount := (fileRecords file).length } := by
  cases file <;> simp [getAppDataRange, fileRecords]

/-- C8: the store never errors on an overrunning range — for every file
state, `start ≥ 0` and `size > 0`, the response is the clamped slice:
`data.length = min size (totalCount - start)` with each returned element
taken from the dataset at absolute index `start + j`, `data.length ≤ size`
always, and `data.length < size` exactly when `start + size` overruns
`totalCount`. -/
theorem getAppDataRange_clamps (file : Option (List DataRecord))
    (start size : Nat) (hsize : 0 < size) :
    (getAppDataRange file start size).data.length ≤ size ∧
    (getAppDataRange file start size).data.length
      = min size ((getAppDataRange file start size).totalCount - start) ∧
    (∀ j : Nat, j < (getAppDataRange file start size).data.length →
      (getAppDataRange file start size).data[j]?
        = (fileRecords file)[start + j]?) ∧
    ((getAppDataRange file start size).data.length < size ↔
      (getAppDataRange file start size).totalCount < start + size) := by
  rw [getAppDataRange_eq]
  refine ⟨?_, ?_, ?_, ?_⟩
  · simp only [List.length_take, List.length_drop]
    exact min_le_left _ _
  · simp only [List.length_take, List.length_drop]
  · intro j hj
    simp only [List.length_take, List.length_drop, lt_min_iff] at hj
    rw [List.getElem?_take_of_lt hj.1, List.getElem?_drop]
  · simp only [List.length_take, List.length_drop]
    omega

/-- Witness for C8 at an overrunning request: a one-record dataset queried
with `start = 1`, `size = 2` returns 0 records, `0 = min 2 (1 - 1)`, and
`0 < 2 ↔ 1 < 3`. -/
theorem getAppDataRange_clamps_witness :
    (getAppDataRange (some [sampleRecord]) 1 2).data.length ≤ 2 ∧
    (getAppDataRange (some [sampleRecord]) 1 2).data.length
      = min 2 ((getAppDataRange (some [sampleRecord]) 1 2).totalCount - 1) ∧
    ((getAppDataRange (some [sampleRecord]) 1 2).data.length < 2 ↔
      (getAppDataRange (some [sampleRecord]) 1 2).totalCount < 1 + 2) := by
  have h := getAppDataRange_clamps (some [sampleRecord]) 1 2 (by decide)
  exact ⟨h.1, h.2.1, h.2.2.2⟩

/-! ## The route handler (`GET /api/apps/[app-id]/data`)

`const start = startParam ? parseInt(startParam, 10) : 0;`
`const size = sizeParam ? parseInt(sizeParam, 10) : 50;`
then `if (isNaN(start) || start < 0)` → 400, `if (isNaN(size) || size <= 0
|| size > 1000)` → 400, else `getAppDataRange(appId, start, size)`.
A `null` or empty-string query parameter is falsy, so it takes the
default.  `parseInt(s, 10)` skips leading whitespace, accepts an optional
sign, reads leading decimal digits (ignoring any trailing garbage), and
is `NaN` (modelled as `none`) when no digits are found. -/

/-- The numeric value of a list of decimal digit characters. -/
def digitsVal (cs : List Char) : Nat :=
  cs.foldl (fun n c => n * 10 + (c.toNat - 48)) 0

/-- The JavaScript function `parseInt(s, 10)`; `none` models `NaN`. -/
def parseIntJS (s : String) : Option Int :=
  let cs := s.toList.dropWhile fun c =>
    c == ' ' || c == '\t' || c == '\n' || c == '\r'
  match cs with
  | '-' :: rest =>
      let ds := rest.takeWhile Char.isDigit
      if ds.isEmpty then none else some (-(digitsVal ds : Int))
  | '+' :: rest =>
      let ds := rest.takeWhile Char.isDigit
      if ds.isEmpty then none else some ((digitsVal ds : Int))
  | other =>
      let ds := other.takeWhile Char.isDigit
      if ds.isEmpty then none else some ((digitsVal ds : Int))

/-- The result of the route handler: a 400 validation response or the data. -/
inductive RouteResult where
  /-- `NextResponse.json({error: …}, {status: 400})`. -/
  | badRequest (message : String)
  /-- `NextResponse.json({data, totalCount})`. -/
  | ok (result : RangeQueryResult)
deriving DecidableEq, Repr

/-- Whether the result is a 400 validation error. -/
def RouteResult.isBadRequest : RouteResult → Bool
  | .badRequest _ => true
  | .ok _ => false

/-- The `GET` handler of `/api/apps/[app-id]/data`, over the data file of
the app and the raw `start`/`size` query parameters (`none` = absent). -/
def GETdata (file : Option (List DataRecord))
    (startParam sizeParam : Option String) : RouteResult :=
  let startVal : Option Int :=
    match startParam with
    | some s => if s.isEmpty then some 0 else parseIntJS s
    | none => some 0
  let sizeVal : Option Int :=
    match sizeParam with
    | some s => if s.isEmpty then some 50 else parseIntJS s
    | none => some 50
  match startVal with
  | none => .badRequest "Invalid start parameter"
  | some start =>
      if start < 0 then .badRequest "Invalid start parameter"
      else
        match sizeVal with
        | none => .badRequest "Invalid size parameter (must be between 1 and 1000)"
        | some size =>
            if size ≤ 0 ∨ 1000 < size then
              .badRequest "Invalid size parameter (must be between 1 and 1000)"
            else .ok (getAppDataRange file start.toNat size.toNat)

/-- C9: raises-iff for request validation — for explicit (non-empty)
`start` and `size` parameters, the handler returns a 400 validation error
exactly when `start` parses to `NaN` or a negative number, or `size`
parses to `NaN`, a number `≤ 0`, or a number `> 1000`; for all other
values the request proceeds to the range query with the parsed values. -/
theorem GETdata_validation_iff (file : Option (List DataRecord))
    (s t : String) (hs : s.isEmpty = false) (ht : t.isEmpty = false) :
    ((GETdata file (some s) (some t)).isBadRequest = true ↔
      parseIntJS s = none ∨ (∃ v, parseIntJS s = some v ∧ v < 0) ∨
      parseIntJS t = none ∨ (∃ v, parseIntJS t = some v ∧ (v ≤ 0 ∨ 1000 < v))) ∧
    (∀ sv tv : Int, parseIntJS s = some sv → parseIntJS t = some tv →
      0 ≤ sv → 0 < tv → tv ≤ 1000 →
      GETdata file (some s) (some t)
        = .ok (getAppDataRange file sv.toNat tv.toNat)) := by
  constructor
  · cases hps : parseIntJS s with
    | none => simp [GETdata, hs, ht, hps, RouteResult.isBadRequest]
    | some sv =>
        cases hpt : parseIntJS t with
        | none =>
            simp only [GETdata, hs, ht, hps, hpt, Bool.false_eq_true,
              if_false, reduceCtorEq, false_or, Option.some.injEq]
            split_ifs with h1 <;>
              simp [RouteResult.isBadRequest, h1]
        | some tv =>
            simp only [GETdata, hs, ht, hps, hpt, Bool.false_eq_true,
              if_false, reduceCtorEq, false_or, Option.some.injEq]
            split_ifs with h1 h2 <;>
              simp [RouteResult.isBadRequest, h1] <;> omega
  · intro sv tv h1 h2 hsv htv1 htv2
    simp only [GETdata, hs, ht, h1, h2, Bool.false_eq_true, if_false]
    rw [if_neg (by omega), if_neg (by omega)]

/-- Witness for C9: `start = "10"`, `size = "2000"` is rejected with a
validation error (2000 > 1000), and `start = "10"`, `size = "50"`
proceeds to the range query `(10, 50)`. -/
theorem GETdata_validation_iff_witness :
    (GETdata none (some "10") (some "2000")).isBadRequest = true ∧
    GETdata none (some "10") (some "50")
      = .ok (getAppDataRange none (Int.toNat 10) (Int.toNat 50)) :=
  ⟨(GETdata_validation_iff none "10" "2000" (by decide) (by decide)).1.mpr
      (Or.inr (Or.inr (Or.inr ⟨2000, by decide, Or.inr (by decide)⟩))),
    (GETdata_validation_iff none "10" "50" (by decide) (by decide)).2 10 50
      (by decide) (by decide) (by decide) (by decide) (by decide)⟩

/-- C10: implicit defaults — a missing `start` parameter (or an empty one,
falsy in JavaScript) is treated as `start = 0`, a missing or empty `size`
as `size = 50`; these defaults pass validation, so a parameterless request
proceeds and returns the first 50 records of the dataset. -/
theorem GETdata_defaults (file : Option (List DataRecord)) :
    GETdata file none none = .ok (getAppDataRange file 0 50) ∧
    GETdata file (some "") (some "") = .ok (getAppDataRange file 0 50) ∧
    (getAppDataRange file 0 50).data = (fileRecords file).take 50 ∧
    (GETdata file none none).isBadRequest = false := by
  refine ⟨?_, ?_, ?_, ?_⟩
  · simp [GETdata]
  · rfl
  · rw [getAppDataRange_eq]
    rfl
  · simp [GETdata, RouteResult.isBadRequest]
